import Mathlib

/-!
Verification of the host-side radix-sort orchestrator of `wgpu_sort`
(`src/lib.rs`, `src/utils.rs`) against its natural-language specification.

The host code is embedded shallowly: the `u32` arithmetic of the Rust release
build is modelled as natural-number arithmetic reduced modulo `2^32` at every
operation, command recording into a `wgpu::CommandEncoder` is modelled as a
list of commands, and buffer allocation is modelled by descriptor records
(byte size and usage flags).  The WGSL compute shaders (`radix_sort.wgsl`) are
not part of the sources; where a property depends on device execution, the
device semantics is modelled from the specification (definitions marked
`Modelled from the spec:`).
-/

/-- Modulus of 32-bit unsigned integer arithmetic. -/
def U32 : Nat := 4294967296

/-- Wrapping `u32` addition (Rust release semantics). -/
def wadd (a b : Nat) : Nat := (a + b) % U32

/-- Wrapping `u32` subtraction (Rust release semantics); arguments are `u32` values. -/
def wsub (a b : Nat) : Nat := (a + U32 - b) % U32

/-- Wrapping `u32` multiplication (Rust release semantics). -/
def wmul (a b : Nat) : Nat := (a * b) % U32

/-- Workgroup size of the histogram shader (`HISTOGRAM_WG_SIZE`). -/
def HISTOGRAM_WG_SIZE : Nat := 256

/-- Workgroup size of the prefix shader (`PREFIX_WG_SIZE = 1 << 7`). -/
def PREFIX_WG_SIZE : Nat := 1 <<< 7

/-- Workgroup size of the scatter shader (`SCATTER_WG_SIZE = 1 << 8`). -/
def SCATTER_WG_SIZE : Nat := 1 <<< 8

/-- Bits sorted per pass (`RS_RADIX_LOG2`). -/
def RS_RADIX_LOG2 : Nat := 8

/-- Entries of the radix table (`RS_RADIX_SIZE = 1 << RS_RADIX_LOG2`). -/
def RS_RADIX_SIZE : Nat := 1 <<< RS_RADIX_LOG2

/-- Bytes per key/value (`RS_KEYVAL_SIZE = 32 / RS_RADIX_LOG2`). -/
def RS_KEYVAL_SIZE : Nat := 32 / RS_RADIX_LOG2

/-- Constant `RS_HISTOGRAM_BLOCK_ROWS`. -/
def RS_HISTOGRAM_BLOCK_ROWS : Nat := 15

/-- Constant `RS_SCATTER_BLOCK_ROWS = RS_HISTOGRAM_BLOCK_ROWS`. -/
def RS_SCATTER_BLOCK_ROWS : Nat := RS_HISTOGRAM_BLOCK_ROWS

/-- Keyvals scattered by one workgroup (`SCATTER_BLOCK_KVS`). -/
def SCATTER_BLOCK_KVS : Nat := HISTOGRAM_WG_SIZE * RS_SCATTER_BLOCK_ROWS

/-- Keyvals consumed by one histogram workgroup (`HISTO_BLOCK_KVS`). -/
def HISTO_BLOCK_KVS : Nat := HISTOGRAM_WG_SIZE * RS_HISTOGRAM_BLOCK_ROWS

/-- Bytes per payload element (`BYTES_PER_PAYLOAD_ELEM`). -/
def BYTES_PER_PAYLOAD_ELEM : Nat := 4

/-- Number of sorting passes (`NUM_PASSES = BYTES_PER_PAYLOAD_ELEM`). -/
def NUM_PASSES : Nat := BYTES_PER_PAYLOAD_ELEM

/-- Source `fn scatter_blocks_ru(n: u32) -> u32 { (n + SCATTER_BLOCK_KVS - 1) / SCATTER_BLOCK_KVS }`
in wrapping `u32` arithmetic. -/
def scatter_blocks_ru (n : Nat) : Nat :=
  wsub (wadd n SCATTER_BLOCK_KVS) 1 / SCATTER_BLOCK_KVS

/-- Source `fn histo_blocks_ru(n: u32) -> u32`
`{ (scatter_blocks_ru(n) * SCATTER_BLOCK_KVS + HISTO_BLOCK_KVS - 1) / HISTO_BLOCK_KVS }`
in wrapping `u32` arithmetic. -/
def histo_blocks_ru (n : Nat) : Nat :=
  wsub (wadd (wmul (scatter_blocks_ru n) SCATTER_BLOCK_KVS) HISTO_BLOCK_KVS) 1 / HISTO_BLOCK_KVS

/-- Source `fn keys_buffer_size(n: u32) -> u32 { histo_blocks_ru(n) * HISTO_BLOCK_KVS }`
in wrapping `u32` arithmetic. -/
def keys_buffer_size (n : Nat) : Nat :=
  wmul (histo_blocks_ru n) HISTO_BLOCK_KVS

/-- Source `SortBuffers::keys_valid_size`: `(self.len() * RS_KEYVAL_SIZE) as u64`; the
product is computed in `u32` (wrapping) and only then widened to `u64`. -/
def keys_valid_size (len : Nat) : Nat := wmul len RS_KEYVAL_SIZE

/-- Usage flags of a `wgpu` buffer (the three flags this crate uses). -/
structure BufferUsage where
  storage : Bool
  copyDst : Bool
  copySrc : Bool
deriving DecidableEq, Repr

/-- Descriptor of an allocated `wgpu` buffer: byte size (as passed to
`create_buffer`, after the `u32` computation is widened to `u64`) and usage. -/
structure BufferDesc where
  size : Nat
  usage : BufferUsage
deriving DecidableEq, Repr

/-- Source `GPUSorter::create_keyval_buffers(device, length)`: returns descriptors of
`(keys, keys_aux, payload, payload_aux)`.  `count_ru_histo` and all byte sizes
are computed in wrapping `u32` arithmetic exactly as in the source. -/
def create_keyval_buffers (length : Nat) :
    BufferDesc × BufferDesc × BufferDesc × BufferDesc :=
  let count_ru_histo := wmul (keys_buffer_size length) RS_KEYVAL_SIZE
  let keys : BufferDesc :=
    { size := wmul count_ru_histo BYTES_PER_PAYLOAD_ELEM
      usage := { storage := true, copyDst := true, copySrc := true } }
  let keys_aux : BufferDesc :=
    { size := wmul count_ru_histo BYTES_PER_PAYLOAD_ELEM
      usage := { storage := true, copyDst := false, copySrc := false } }
  let payload : BufferDesc :=
    { size := wmul length BYTES_PER_PAYLOAD_ELEM
      usage := { storage := true, copyDst := true, copySrc := true } }
  let payload_aux : BufferDesc :=
    { size := wmul length BYTES_PER_PAYLOAD_ELEM
      usage := { storage := true, copyDst := false, copySrc := false } }
  (keys, keys_aux, payload, payload_aux)

/-- The five compute pipelines owned by `GPUSorter`. -/
inductive Pipeline where
  | zeroHistograms
  | calculateHistogram
  | prefixHistogram
  | scatterEven
  | scatterOdd
deriving DecidableEq, Repr

/-- One recorded host command: a `queue.write_buffer` into the state buffer
(offset, `u32` value), the start of a compute pass, a pipeline binding, a
direct dispatch `(x, y, z)`, or an indirect dispatch reading the caller's
dispatch buffer at a byte offset. -/
inductive Cmd where
  | writeState (offset value : Nat)
  | beginPass (label : String)
  | setPipeline (p : Pipeline)
  | dispatch (x y z : Nat)
  | dispatchIndirect (offset : Nat)
deriving DecidableEq, Repr

/-- Source `GPUSorter::record_calculate_histogram`: one pass running
`zero_histograms`, then one pass running `calculate_histogram`, each with
`histo_blocks_ru(length)` workgroups. -/
def record_calculate_histogram (length : Nat) : List Cmd :=
  [ Cmd.beginPass "zeroing the histogram",
    Cmd.setPipeline Pipeline.zeroHistograms,
    Cmd.dispatch (histo_blocks_ru length) 1 1,
    Cmd.beginPass "calculate histogram",
    Cmd.setPipeline Pipeline.calculateHistogram,
    Cmd.dispatch (histo_blocks_ru length) 1 1 ]

/-- Source `GPUSorter::record_calculate_histogram_indirect`: the same two passes,
each dispatched indirectly from the caller's buffer at offset 0. -/
def record_calculate_histogram_indirect : List Cmd :=
  [ Cmd.beginPass "zeroing the histogram",
    Cmd.setPipeline Pipeline.zeroHistograms,
    Cmd.dispatchIndirect 0,
    Cmd.beginPass "calculate histogram",
    Cmd.setPipeline Pipeline.calculateHistogram,
    Cmd.dispatchIndirect 0 ]

/-- Source `GPUSorter::record_prefix_histogram`: one pass dispatching
`prefix_histogram` with `NUM_PASSES` workgroups. -/
def record_prefix_histogram : List Cmd :=
  [ Cmd.beginPass "prefix histogram",
    Cmd.setPipeline Pipeline.prefixHistogram,
    Cmd.dispatch NUM_PASSES 1 1 ]

/-- Source `GPUSorter::record_scatter_keys`: a single compute pass with four
dispatches of `scatter_blocks_ru(length)` workgroups, cycling the pipelines
even, odd, even, odd. -/
def record_scatter_keys (length : Nat) : List Cmd :=
  [ Cmd.beginPass "Scatter keyvals",
    Cmd.setPipeline Pipeline.scatterEven,
    Cmd.dispatch (scatter_blocks_ru length) 1 1,
    Cmd.setPipeline Pipeline.scatterOdd,
    Cmd.dispatch (scatter_blocks_ru length) 1 1,
    Cmd.setPipeline Pipeline.scatterEven,
    Cmd.dispatch (scatter_blocks_ru length) 1 1,
    Cmd.setPipeline Pipeline.scatterOdd,
    Cmd.dispatch (scatter_blocks_ru length) 1 1 ]

/-- Source `GPUSorter::record_scatter_keys_indirect`: a single compute pass with four
indirect dispatches from the caller's buffer at offset 0, cycling even, odd,
even, odd. -/
def record_scatter_keys_indirect : List Cmd :=
  [ Cmd.beginPass "radix sort scatter keyvals",
    Cmd.setPipeline Pipeline.scatterEven,
    Cmd.dispatchIndirect 0,
    Cmd.setPipeline Pipeline.scatterOdd,
    Cmd.dispatchIndirect 0,
    Cmd.setPipeline Pipeline.scatterEven,
    Cmd.dispatchIndirect 0,
    Cmd.setPipeline Pipeline.scatterOdd,
    Cmd.dispatchIndirect 0 ]

/-- Source `GPUSorter::sort(encoder, queue, sort_buffers, sort_first_n)` as the list
of commands it records: `num_elements = sort_first_n.unwrap_or(len)` is first
written (4 bytes) to offset 0 of the state buffer, then the histogram, prefix
and scatter passes are recorded. -/
def sort (bufLen : Nat) (sortFirstN : Option Nat) : List Cmd :=
  let numElements := sortFirstN.getD bufLen
  Cmd.writeState 0 numElements ::
    (record_calculate_histogram numElements ++
      record_prefix_histogram ++
      record_scatter_keys numElements)

/-- Source `GPUSorter::sort_indirect(encoder, sort_buffers, dispatch_buffer)` as the
list of commands it records: no queue write, histogram and scatter passes
dispatched indirectly, prefix dispatched directly. -/
def sort_indirect : List Cmd :=
  record_calculate_histogram_indirect ++
    record_prefix_histogram ++
    record_scatter_keys_indirect

/-- The subgroup widths probed by `guess_workgroup_size`, in program order. -/
def probeWidths : List Nat := [1, 8, 16, 32, 64, 128]

/-- The loop of `guess_workgroup_size`: walk the widths in order; on a failed
test break out of the loop keeping the current `best`, on a successful test
record the width as `best` and continue. -/
def guessLoop (success : Nat → Bool) : List Nat → Option Nat → Option Nat
  | [], best => best
  | w :: ws, best => if success w then guessLoop success ws (some w) else best

/-- Source `guess_workgroup_size(device, queue)`, with the outcome of the
8192-element test sort at each width abstracted as the oracle `success`
(the test runs on the device; its shaders are not part of the sources). -/
def guess_workgroup_size (success : Nat → Bool) : Option Nat :=
  guessLoop success probeWidths none

/-- The value the specification says the probe returns: the largest width in
`probeWidths` whose test sort produced correctly sorted output, if any. -/
def largestSuccessful (success : Nat → Bool) : Option Nat :=
  (probeWidths.filter success).max?

/-- Digit of pass `p` of a 32-bit key: bits `[8p, 8p+8)`, i.e.
`(k / 256^p) % 256`. -/
def digitOf (p k : Nat) : Nat := k / 256 ^ p % 256

/-- Modelled from the spec: the combined effect of one scatter pass
(`scatter_even` / `scatter_odd` of `radix_sort.wgsl`, which is not under
`src/`).  Per spec 4.5 and the glossary, the scatter places each keyval at
its global base offset (the exclusive prefix over the histogram, i.e. the
number of keyvals with a smaller digit in the current pass) plus its local
rank among keyvals of equal digit, which the decoupled look-back makes the
rank in input order.  Equivalently, the output is the concatenation, digit by
digit in increasing order, of the keyvals of each digit in input order. -/
def scatterPassList (p : Nat) (l : List (Nat × Nat)) : List (Nat × Nat) :=
  (List.range 256).flatMap fun d => l.filter fun kv => digitOf p kv.1 == d

/-- Modelled from the spec: the device-visible state a sort mutates — the two
key buffers, the two payload buffers (each a list of `u32` values), and the
three host-visible fields of the sorter-state record (`num_keys`,
`even_pass`, `odd_pass`).  The internal histogram buffer is not tracked: per
spec 2 it is consumed only by the scatter passes, whose base offsets
`scatterPassList` already incorporates. -/
structure DeviceState where
  keysA : List Nat
  keysB : List Nat
  payloadA : List Nat
  payloadB : List Nat
  numKeys : Nat
  evenPass : Nat
  oddPass : Nat
deriving DecidableEq, Repr

/-- Modelled from the spec: effect of dispatching `wg` workgroups of one
pipeline (shaders not under `src/`).  A dispatch of 0 workgroups executes
nothing.  The histogram pipelines write only the untracked internal buffer.
A scatter workgroup `g` processes keyvals `[g*SCATTER_BLOCK_KVS,
(g+1)*SCATTER_BLOCK_KVS)` bounds-checked against `num_keys`, so `wg`
workgroups scatter the first `min num_keys (wg * SCATTER_BLOCK_KVS)` keyvals
into the destination buffers; `scatter_even` reads the `a` side and writes
the `b` side, `scatter_odd` the reverse, and each uses and advances its pass
counter to select the digit of the pass (even passes 0 and 2, odd passes 1
and 3). -/
def dispatchEffect (p : Pipeline) (wg : Nat) (s : DeviceState) : DeviceState :=
  if wg = 0 then s else
    match p with
    | Pipeline.zeroHistograms => s
    | Pipeline.calculateHistogram => s
    | Pipeline.prefixHistogram => s
    | Pipeline.scatterEven =>
        let m := min s.numKeys (wg * SCATTER_BLOCK_KVS)
        let out := scatterPassList (2 * s.evenPass % 4)
          ((s.keysA.take m).zip (s.payloadA.take m))
        { s with
          keysB := out.map Prod.fst ++ s.keysB.drop m
          payloadB := out.map Prod.snd ++ s.payloadB.drop m
          evenPass := s.evenPass + 1 }
    | Pipeline.scatterOdd =>
        let m := min s.numKeys (wg * SCATTER_BLOCK_KVS)
        let out := scatterPassList ((2 * s.oddPass + 1) % 4)
          ((s.keysB.take m).zip (s.payloadB.take m))
        { s with
          keysA := out.map Prod.fst ++ s.keysA.drop m
          payloadA := out.map Prod.snd ++ s.payloadA.drop m
          oddPass := s.oddPass + 1 }

/-- Modelled from the spec: executing one recorded command.  The executor
tracks the currently bound pipeline; `indirectX` is the `x` component of the
dispatch-indirect record at offset 0 of the caller's dispatch buffer (its
`y` and `z` components are required to be 1).  A 4-byte write at offset 0 of
the state buffer replaces `num_keys`. -/
def execStep (indirectX : Nat) :
    DeviceState × Pipeline → Cmd → DeviceState × Pipeline
  | (s, cur), Cmd.writeState off v =>
      (if off = 0 then { s with numKeys := v % U32 } else s, cur)
  | (s, cur), Cmd.beginPass _ => (s, cur)
  | (s, _), Cmd.setPipeline p => (s, p)
  | (s, cur), Cmd.dispatch x _ _ => (dispatchEffect cur x s, cur)
  | (s, cur), Cmd.dispatchIndirect _ => (dispatchEffect cur indirectX s, cur)

/-- Modelled from the spec: executing a recorded command list on the device. -/
def execTrace (indirectX : Nat) (cmds : List Cmd) (s : DeviceState) : DeviceState :=
  (cmds.foldl (execStep indirectX) (s, Pipeline.zeroHistograms)).1

/-- For inputs leaving all intermediate `u32` sums below `2^32`, the block
counts compute the exact ceiling division and the padded size exactly. -/
theorem blocks_exact (n : Nat) (h : n ≤ 4294963200) :
    scatter_blocks_ru n = (n + 3839) / 3840 ∧
    histo_blocks_ru n = (n + 3839) / 3840 ∧
    keys_buffer_size n = (n + 3839) / 3840 * 3840 := by
  have hs : scatter_blocks_ru n = (n + 3839) / 3840 := by
    unfold scatter_blocks_ru wadd wsub U32 SCATTER_BLOCK_KVS HISTOGRAM_WG_SIZE
      RS_SCATTER_BLOCK_ROWS RS_HISTOGRAM_BLOCK_ROWS
    omega
  have hh : histo_blocks_ru n = (n + 3839) / 3840 := by
    unfold histo_blocks_ru
    rw [hs]
    unfold wadd wsub wmul U32 SCATTER_BLOCK_KVS HISTO_BLOCK_KVS HISTOGRAM_WG_SIZE
      RS_SCATTER_BLOCK_ROWS RS_HISTOGRAM_BLOCK_ROWS
    omega
  have hk : keys_buffer_size n = (n + 3839) / 3840 * 3840 := by
    unfold keys_buffer_size
    rw [hh]
    unfold wmul U32 HISTO_BLOCK_KVS HISTOGRAM_WG_SIZE RS_HISTOGRAM_BLOCK_ROWS
    omega
  exact ⟨hs, hh, hk⟩


/-- Splitting a filter on `f x < n + 1` into `f x < n` and `f x = n`, up to
permutation (the matches of `f x = n` move to the back). -/
theorem perm_filter_lt_succ {α : Type} (f : α → Nat) (n : Nat) (l : List α) :
    (l.filter (fun x => decide (f x < n + 1))).Perm
      (l.filter (fun x => decide (f x < n)) ++ l.filter (fun x => f x == n)) := by
  induction l with
  | nil => simp
  | cons a l ih =>
    rcases Nat.lt_trichotomy (f a) n with h1 | h1 | h1
    · have h2 : f a < n + 1 := by omega
      have h3 : (f a == n) = false := by simp; omega
      simp only [List.filter_cons, h3, if_pos (decide_eq_true h1),
        if_pos (decide_eq_true h2), if_neg Bool.false_ne_true, List.cons_append]
      exact ih.cons a
    · have h2 : f a < n + 1 := by omega
      have h3 : (f a == n) = true := by simp [h1]
      have h4 : ¬ (decide (f a < n) = true) := by simp; omega
      simp only [List.filter_cons, h3, if_pos (decide_eq_true h2), if_neg h4, if_pos rfl]
      exact (ih.cons a).trans List.perm_middle.symm
    · have h2 : ¬ (decide (f a < n + 1) = true) := by simp; omega
      have h4 : ¬ (decide (f a < n) = true) := by simp; omega
      have h3 : (f a == n) = false := by simp; omega
      simp only [List.filter_cons, h3, if_neg h2, if_neg h4, if_neg Bool.false_ne_true]
      exact ih

/-- Distributing a list into the buckets `f x = 0, …, f x = n - 1`, in bucket
order, permutes the sublist of elements with `f x < n`. -/
theorem perm_flatMap_filter {α : Type} (f : α → Nat) (n : Nat) (l : List α) :
    ((List.range n).flatMap fun d => l.filter fun x => f x == d).Perm
      (l.filter fun x => decide (f x < n)) := by
  induction n with
  | zero => simp
  | succ n ih =>
    rw [List.range_succ, List.flatMap_append, List.flatMap_cons, List.flatMap_nil,
      List.append_nil]
    exact ((ih.append_right _).trans (perm_filter_lt_succ f n l).symm)

/-- One scatter pass permutes its input. -/
theorem scatterPassList_perm (p : Nat) (l : List (Nat × Nat)) :
    (scatterPassList p l).Perm l := by
  have h := perm_flatMap_filter (fun kv => digitOf p kv.1) 256 l
  rw [List.filter_eq_self.mpr] at h
  · exact h
  · intro kv _
    simp only [decide_eq_true_eq]
    exact Nat.mod_lt _ (by norm_num)

/-- Pairwise property of a bucket concatenation: it holds inside each bucket
and across buckets in increasing bucket order. -/
theorem pairwise_flatMap_range {α : Type} {R : α → α → Prop} (F : Nat → List α) (n : Nat)
    (h1 : ∀ d, (F d).Pairwise R)
    (h2 : ∀ d e, d < e → ∀ x ∈ F d, ∀ y ∈ F e, R x y) :
    ((List.range n).flatMap F).Pairwise R := by
  induction n with
  | zero => simp
  | succ n ih =>
    rw [List.range_succ, List.flatMap_append, List.flatMap_cons, List.flatMap_nil,
      List.append_nil, List.pairwise_append]
    refine ⟨ih, h1 n, ?_⟩
    intro x hx y hy
    rw [List.mem_flatMap] at hx
    obtain ⟨d, hd, hxd⟩ := hx
    rw [List.mem_range] at hd
    exact h2 d n hd x hxd y hy

/-- The low bits of `k` below the digit of pass `p + 1` decompose into the
digit of pass `p` and the bits below it. -/
theorem mod_pow_succ_eq (p k : Nat) :
    k % 256 ^ (p + 1) = k % 256 ^ p + 256 ^ p * digitOf p k := by
  rw [pow_succ, Nat.mod_mul]
  rfl

/-- One scatter pass on a list sorted by the bits below digit `p` yields a
list sorted by the bits below digit `p + 1` (stability of the bucket
distribution plus the digit decomposition). -/
theorem scatterPassList_sorted_step (p : Nat) (l : List (Nat × Nat))
    (h : l.Pairwise fun a b => a.1 % 256 ^ p ≤ b.1 % 256 ^ p) :
    (scatterPassList p l).Pairwise
      fun a b => a.1 % 256 ^ (p + 1) ≤ b.1 % 256 ^ (p + 1) := by
  apply pairwise_flatMap_range
  · intro d
    have hsub : (l.filter fun kv => digitOf p kv.1 == d).Pairwise
        fun a b => a.1 % 256 ^ p ≤ b.1 % 256 ^ p :=
      List.Pairwise.sublist (List.filter_sublist l) h
    apply hsub.imp_of_mem
    intro a b ha hb hab
    have hda : digitOf p a.1 = d := by
      have := (List.mem_filter.mp ha).2
      simpa using this
    have hdb : digitOf p b.1 = d := by
      have := (List.mem_filter.mp hb).2
      simpa using this
    rw [mod_pow_succ_eq, mod_pow_succ_eq, hda, hdb]
    omega
  · intro d e hde x hx y hy
    have hdx : digitOf p x.1 = d := by
      have := (List.mem_filter.mp hx).2
      simpa using this
    have hdy : digitOf p y.1 = e := by
      have := (List.mem_filter.mp hy).2
      simpa using this
    rw [mod_pow_succ_eq, mod_pow_succ_eq, hdx, hdy]
    have hxlt : x.1 % 256 ^ p < 256 ^ p := Nat.mod_lt _ (Nat.pos_pow_of_pos p (by norm_num))
    refine le_of_lt ?_
    calc x.1 % 256 ^ p + 256 ^ p * d < 256 ^ p * (d + 1) := by ring_nf; omega
    _ ≤ 256 ^ p * e := Nat.mul_le_mul_left _ hde
    _ ≤ y.1 % 256 ^ p + 256 ^ p * e := Nat.le_add_left _ _

/-- The four scatter passes of one sort: digits 0, 1, 2, 3 in order. -/
def radixPasses (l : List (Nat × Nat)) : List (Nat × Nat) :=
  scatterPassList 3 (scatterPassList 2 (scatterPassList 1 (scatterPassList 0 l)))

/-- The four passes permute the input keyvals. -/
theorem radixPasses_perm (l : List (Nat × Nat)) : (radixPasses l).Perm l :=
  ((scatterPassList_perm 3 _).trans
    ((scatterPassList_perm 2 _).trans
      ((scatterPassList_perm 1 _).trans (scatterPassList_perm 0 l))))

/-- After the four passes, keyvals with 32-bit keys are sorted by key. -/
theorem radixPasses_sorted (l : List (Nat × Nat))
    (hk : ∀ kv ∈ l, kv.1 < U32) :
    (radixPasses l).Pairwise fun a b => a.1 ≤ b.1 := by
  have h0 : l.Pairwise fun a b => a.1 % 256 ^ 0 ≤ b.1 % 256 ^ 0 := by
    induction l with
    | nil => exact List.Pairwise.nil
    | cons a l ih =>
      refine List.Pairwise.cons (fun y _ => ?_) (ih (fun kv hkv => hk kv (List.mem_cons_of_mem a hkv)))
      simp [Nat.mod_one]
  have h4 := scatterPassList_sorted_step 3 _
    (scatterPassList_sorted_step 2 _
      (scatterPassList_sorted_step 1 _
        (scatterPassList_sorted_step 0 _ h0)))
  apply h4.imp_of_mem
  intro a b ha hb hab
  have ha32 : a.1 < U32 := hk a ((radixPasses_perm l).mem_iff.mp ha)
  have hb32 : b.1 < U32 := hk b ((radixPasses_perm l).mem_iff.mp hb)
  have h256 : (256 : Nat) ^ (3 + 1) = U32 := by norm_num [U32]
  rwa [h256, Nat.mod_eq_of_lt ha32, Nat.mod_eq_of_lt hb32] at hab

/-- The histogram-zeroing dispatch touches only the internal buffer. -/
theorem dispatchEffect_zero (wg : Nat) (s : DeviceState) :
    dispatchEffect Pipeline.zeroHistograms wg s = s := by
  unfold dispatchEffect
  split <;> rfl

/-- The histogram-counting dispatch touches only the internal buffer. -/
theorem dispatchEffect_calc (wg : Nat) (s : DeviceState) :
    dispatchEffect Pipeline.calculateHistogram wg s = s := by
  unfold dispatchEffect
  split <;> rfl

/-- The prefix dispatch touches only the internal buffer. -/
theorem dispatchEffect_prefixPass (wg : Nat) (s : DeviceState) :
    dispatchEffect Pipeline.prefixHistogram wg s = s := by
  unfold dispatchEffect
  split <;> rfl

/-- Explicit form of an even scatter dispatch that covers all active keyvals. -/
theorem dispatchEffect_even_explicit (wg kA kB vA vB n e o : _)
    (hw : wg ≠ 0) (hm : n ≤ wg * SCATTER_BLOCK_KVS) :
    dispatchEffect Pipeline.scatterEven wg ⟨kA, kB, vA, vB, n, e, o⟩ =
      ⟨kA,
       (scatterPassList (2 * e % 4) ((kA.take n).zip (vA.take n))).map Prod.fst
         ++ kB.drop n,
       vA,
       (scatterPassList (2 * e % 4) ((kA.take n).zip (vA.take n))).map Prod.snd
         ++ vB.drop n,
       n, e + 1, o⟩ := by
  unfold dispatchEffect
  rw [if_neg hw]
  simp [Nat.min_eq_left hm]

/-- Explicit form of an odd scatter dispatch that covers all active keyvals. -/
theorem dispatchEffect_odd_explicit (wg kA kB vA vB n e o : _)
    (hw : wg ≠ 0) (hm : n ≤ wg * SCATTER_BLOCK_KVS) :
    dispatchEffect Pipeline.scatterOdd wg ⟨kA, kB, vA, vB, n, e, o⟩ =
      ⟨(scatterPassList ((2 * o + 1) % 4) ((kB.take n).zip (vB.take n))).map Prod.fst
         ++ kA.drop n,
       kB,
       (scatterPassList ((2 * o + 1) % 4) ((kB.take n).zip (vB.take n))).map Prod.snd
         ++ vA.drop n,
       vB,
       n, e, o + 1⟩ := by
  unfold dispatchEffect
  rw [if_neg hw]
  simp [Nat.min_eq_left hm]

/-- Zipping the two projections of a pair list recovers the list. -/
theorem zip_map_fst_snd {α β : Type} (l : List (α × β)) :
    (l.map Prod.fst).zip (l.map Prod.snd) = l := by
  have h := List.zip_unzip l
  rwa [List.unzip_eq_map] at h

/-- Blocks cover the input and are nonzero for nonzero input: facts about
`scatter_blocks_ru` used when running the recorded trace. -/
theorem scatter_blocks_cover (n : Nat) (hn1 : 1 ≤ n) (hn : n ≤ 4294963200) :
    scatter_blocks_ru n ≠ 0 ∧ n ≤ scatter_blocks_ru n * SCATTER_BLOCK_KVS := by
  obtain ⟨hs, -, -⟩ := blocks_exact n hn
  rw [hs]
  unfold SCATTER_BLOCK_KVS HISTOGRAM_WG_SIZE RS_SCATTER_BLOCK_ROWS RS_HISTOGRAM_BLOCK_ROWS
  constructor
  · intro h
    omega
  · omega

/-- Running the trace recorded by `sort` for `n` active keyvals on a fresh
buffer bundle: the `a` buffers receive the four-pass result on their first
`n` slots, the `b` buffers hold the third pass, and both pass counters end
at 2. -/
theorem exec_sort_run (x bufLen n nk : Nat) (kA kB vA vB : List Nat)
    (hn1 : 1 ≤ n) (hn : n ≤ 4294963200)
    (hkA : n ≤ kA.length) (hvA : n ≤ vA.length) :
    execTrace x (sort bufLen (some n)) ⟨kA, kB, vA, vB, nk, 0, 0⟩ =
      ⟨(radixPasses ((kA.take n).zip (vA.take n))).map Prod.fst ++ kA.drop n,
       (scatterPassList 2 (scatterPassList 1 (scatterPassList 0
           ((kA.take n).zip (vA.take n))))).map Prod.fst ++ kB.drop n,
       (radixPasses ((kA.take n).zip (vA.take n))).map Prod.snd ++ vA.drop n,
       (scatterPassList 2 (scatterPassList 1 (scatterPassList 0
           ((kA.take n).zip (vA.take n))))).map Prod.snd ++ vB.drop n,
       n, 2, 2⟩ := by
  obtain ⟨hw0, hwm⟩ := scatter_blocks_cover n hn1 hn
  have hnm : n % U32 = n := Nat.mod_eq_of_lt (by unfold U32; omega)
  set l0 : List (Nat × Nat) := (kA.take n).zip (vA.take n) with hl0
  have hlen0 : l0.length = n := by
    rw [hl0, List.length_zip, List.length_take, List.length_take]
    omega
  set l1 : List (Nat × Nat) := scatterPassList 0 l0 with hl1
  have hlen1 : l1.length = n := by
    rw [hl1, (scatterPassList_perm 0 l0).length_eq, hlen0]
  set l2 : List (Nat × Nat) := scatterPassList 1 l1 with hl2
  have hlen2 : l2.length = n := by
    rw [hl2, (scatterPassList_perm 1 l1).length_eq, hlen1]
  set l3 : List (Nat × Nat) := scatterPassList 2 l2 with hl3
  have hlen3 : l3.length = n := by
    rw [hl3, (scatterPassList_perm 2 l2).length_eq, hlen2]
  have E1 : dispatchEffect Pipeline.scatterEven (scatter_blocks_ru n)
      ⟨kA, kB, vA, vB, n, 0, 0⟩ =
        ⟨kA, l1.map Prod.fst ++ kB.drop n, vA, l1.map Prod.snd ++ vB.drop n, n, 1, 0⟩ := by
    rw [dispatchEffect_even_explicit _ _ _ _ _ _ _ _ hw0 hwm]
  have E2 : dispatchEffect Pipeline.scatterOdd (scatter_blocks_ru n)
      ⟨kA, l1.map Prod.fst ++ kB.drop n, vA, l1.map Prod.snd ++ vB.drop n, n, 1, 0⟩ =
        ⟨l2.map Prod.fst ++ kA.drop n, l1.map Prod.fst ++ kB.drop n,
         l2.map Prod.snd ++ vA.drop n, l1.map Prod.snd ++ vB.drop n, n, 1, 1⟩ := by
    rw [dispatchEffect_odd_explicit _ _ _ _ _ _ _ _ hw0 hwm]
    rw [List.take_left' (by simp [hlen1]), List.take_left' (by simp [hlen1]),
      zip_map_fst_snd]
  have E3 : dispatchEffect Pipeline.scatterEven (scatter_blocks_ru n)
      ⟨l2.map Prod.fst ++ kA.drop n, l1.map Prod.fst ++ kB.drop n,
       l2.map Prod.snd ++ vA.drop n, l1.map Prod.snd ++ vB.drop n, n, 1, 1⟩ =
        ⟨l2.map Prod.fst ++ kA.drop n, l3.map Prod.fst ++ kB.drop n,
         l2.map Prod.snd ++ vA.drop n, l3.map Prod.snd ++ vB.drop n, n, 2, 1⟩ := by
    rw [dispatchEffect_even_explicit _ _ _ _ _ _ _ _ hw0 hwm]
    rw [List.take_left' (by simp [hlen2]), List.take_left' (by simp [hlen2]),
      zip_map_fst_snd, List.drop_left' (by simp [hlen1]), List.drop_left' (by simp [hlen1])]
  have E4 : dispatchEffect Pipeline.scatterOdd (scatter_blocks_ru n)
      ⟨l2.map Prod.fst ++ kA.drop n, l3.map Prod.fst ++ kB.drop n,
       l2.map Prod.snd ++ vA.drop n, l3.map Prod.snd ++ vB.drop n, n, 2, 1⟩ =
        ⟨(scatterPassList 3 l3).map Prod.fst ++ kA.drop n, l3.map Prod.fst ++ kB.drop n,
         (scatterPassList 3 l3).map Prod.snd ++ vA.drop n, l3.map Prod.snd ++ vB.drop n,
         n, 2, 2⟩ := by
    rw [dispatchEffect_odd_explicit _ _ _ _ _ _ _ _ hw0 hwm]
    rw [List.take_left' (by simp [hlen3]), List.take_left' (by simp [hlen3]),
      zip_map_fst_snd, List.drop_left' (by simp [hlen2]), List.drop_left' (by simp [hlen2])]
  show (List.foldl (execStep x) _ _).1 = _
  simp only [sort, record_calculate_histogram, record_prefix_histogram,
    record_scatter_keys, Option.getD, List.cons_append, List.nil_append,
    List.foldl, execStep, dispatchEffect_zero, dispatchEffect_calc,
    dispatchEffect_prefixPass, if_pos rfl, hnm, eq_self_iff_true, if_true, ite_true]
  rw [E1, E2, E3, E4]
  rfl

/-- C1: after the device executes the commands recorded by
`sort(encoder, queue, buffers, Some n)` (or `sort_first_n = None` with
`n = capacity`) on a fresh `SortBuffers` bundle of capacity at least 1 with
`1 <= n <= capacity`, the first `n` entries of `keys_a` are the input keys in
ascending unsigned 32-bit order, and the first `n` entries of `payload_a` are
the input payloads moved by the same permutation: the output key/payload
pairs are a permutation of the input pairs with sorted keys. -/
theorem sort_output_sorted (x nk : Nat) (kA kB vA vB : List Nat)
    (sortFirstN : Option Nat) (n : Nat) (hdef : n = sortFirstN.getD kA.length)
    (hn1 : 1 ≤ n) (hcap : n ≤ kA.length) (hvA : n ≤ vA.length)
    (hsmall : kA.length ≤ 4294963200)
    (hkeys : ∀ k ∈ kA.take n, k < U32) :
    List.Sorted (· ≤ ·)
        ((execTrace x (sort kA.length sortFirstN) ⟨kA, kB, vA, vB, nk, 0, 0⟩).keysA.take n) ∧
    (((execTrace x (sort kA.length sortFirstN) ⟨kA, kB, vA, vB, nk, 0, 0⟩).keysA.take n).zip
        ((execTrace x (sort kA.length sortFirstN) ⟨kA, kB, vA, vB, nk, 0, 0⟩).payloadA.take n)).Perm
      ((kA.take n).zip (vA.take n)) := by
  have hred : sort kA.length sortFirstN = sort kA.length (some n) := by
    cases sortFirstN with
    | none => simp [sort, hdef]
    | some m =>
      simp only [Option.getD_some] at hdef
      rw [hdef]
  have hrun := exec_sort_run x kA.length n nk kA kB vA vB hn1 (by omega) hcap hvA
  rw [hred, hrun]
  have hlen0 : ((kA.take n).zip (vA.take n)).length = n := by
    rw [List.length_zip, List.length_take, List.length_take]
    omega
  have hlenR : ((radixPasses ((kA.take n).zip (vA.take n))).map Prod.fst).length = n := by
    rw [List.length_map, (radixPasses_perm _).length_eq, hlen0]
  have hlenS : ((radixPasses ((kA.take n).zip (vA.take n))).map Prod.snd).length = n := by
    rw [List.length_map, (radixPasses_perm _).length_eq, hlen0]
  have htakeA :
      (((⟨(radixPasses ((kA.take n).zip (vA.take n))).map Prod.fst ++ kA.drop n,
          (scatterPassList 2 (scatterPassList 1 (scatterPassList 0
              ((kA.take n).zip (vA.take n))))).map Prod.fst ++ kB.drop n,
          (radixPasses ((kA.take n).zip (vA.take n))).map Prod.snd ++ vA.drop n,
          (scatterPassList 2 (scatterPassList 1 (scatterPassList 0
              ((kA.take n).zip (vA.take n))))).map Prod.snd ++ vB.drop n,
          n, 2, 2⟩ : DeviceState)).keysA.take n)
        = (radixPasses ((kA.take n).zip (vA.take n))).map Prod.fst := by
    exact List.take_left' hlenR
  have htakeB :
      (((⟨(radixPasses ((kA.take n).zip (vA.take n))).map Prod.fst ++ kA.drop n,
          (scatterPassList 2 (scatterPassList 1 (scatterPassList 0
              ((kA.take n).zip (vA.take n))))).map Prod.fst ++ kB.drop n,
          (radixPasses ((kA.take n).zip (vA.take n))).map Prod.snd ++ vA.drop n,
          (scatterPassList 2 (scatterPassList 1 (scatterPassList 0
              ((kA.take n).zip (vA.take n))))).map Prod.snd ++ vB.drop n,
          n, 2, 2⟩ : DeviceState)).payloadA.take n)
        = (radixPasses ((kA.take n).zip (vA.take n))).map Prod.snd := by
    exact List.take_left' hlenS
  rw [htakeA, htakeB, zip_map_fst_snd]
  constructor
  · rw [List.Sorted, List.pairwise_map]
    apply radixPasses_sorted
    intro kv hkv
    rcases kv with ⟨k, v⟩
    exact hkeys k (List.of_mem_zip hkv).1
  · exact radixPasses_perm _

/-- C4: for every buffer length and every requested `n`, `sort` first writes
`n` (defaulting to the buffer length when `sort_first_n` is `None`) to offset
0 of the state buffer, then records in order: `zero_histograms` and
`calculate_histogram` with `histo_blocks_ru(n)` workgroups each (one pass
each), `prefix_histogram` with exactly 4 workgroups, and one compute pass
with four scatter dispatches of `scatter_blocks_ru(n)` workgroups each,
cycling even, odd, even, odd. -/
theorem sort_records_claimed_sequence (bufLen : Nat) (sortFirstN : Option Nat) :
    sort bufLen sortFirstN =
      Cmd.writeState 0 (sortFirstN.getD bufLen) ::
      [ Cmd.beginPass "zeroing the histogram",
        Cmd.setPipeline Pipeline.zeroHistograms,
        Cmd.dispatch (histo_blocks_ru (sortFirstN.getD bufLen)) 1 1,
        Cmd.beginPass "calculate histogram",
        Cmd.setPipeline Pipeline.calculateHistogram,
        Cmd.dispatch (histo_blocks_ru (sortFirstN.getD bufLen)) 1 1,
        Cmd.beginPass "prefix histogram",
        Cmd.setPipeline Pipeline.prefixHistogram,
        Cmd.dispatch 4 1 1,
        Cmd.beginPass "Scatter keyvals",
        Cmd.setPipeline Pipeline.scatterEven,
        Cmd.dispatch (scatter_blocks_ru (sortFirstN.getD bufLen)) 1 1,
        Cmd.setPipeline Pipeline.scatterOdd,
        Cmd.dispatch (scatter_blocks_ru (sortFirstN.getD bufLen)) 1 1,
        Cmd.setPipeline Pipeline.scatterEven,
        Cmd.dispatch (scatter_blocks_ru (sortFirstN.getD bufLen)) 1 1,
        Cmd.setPipeline Pipeline.scatterOdd,
        Cmd.dispatch (scatter_blocks_ru (sortFirstN.getD bufLen)) 1 1 ] := rfl

/-- C6: `sort_indirect` performs no write to the state buffer and records:
`zero_histograms` and `calculate_histogram` as indirect dispatches reading
the caller buffer at offset 0, `prefix_histogram` as a direct dispatch of
exactly 4 workgroups, and the four scatter dispatches (even, odd, even, odd)
as indirect dispatches from the same buffer at offset 0; no workgroup count
is computed from `n` anywhere in the trace. -/
theorem sort_indirect_records_claimed_sequence (off v : Nat) :
    sort_indirect =
      [ Cmd.beginPass "zeroing the histogram",
        Cmd.setPipeline Pipeline.zeroHistograms,
        Cmd.dispatchIndirect 0,
        Cmd.beginPass "calculate histogram",
        Cmd.setPipeline Pipeline.calculateHistogram,
        Cmd.dispatchIndirect 0,
        Cmd.beginPass "prefix histogram",
        Cmd.setPipeline Pipeline.prefixHistogram,
        Cmd.dispatch 4 1 1,
        Cmd.beginPass "radix sort scatter keyvals",
        Cmd.setPipeline Pipeline.scatterEven,
        Cmd.dispatchIndirect 0,
        Cmd.setPipeline Pipeline.scatterOdd,
        Cmd.dispatchIndirect 0,
        Cmd.setPipeline Pipeline.scatterEven,
        Cmd.dispatchIndirect 0,
        Cmd.setPipeline Pipeline.scatterOdd,
        Cmd.dispatchIndirect 0 ] ∧
    Cmd.writeState off v ∉ sort_indirect := by
  constructor
  · rfl
  · intro hmem
    simp only [sort_indirect, record_calculate_histogram_indirect,
      record_prefix_histogram, record_scatter_keys_indirect, List.cons_append,
      List.nil_append, List.mem_cons, List.not_mem_nil, or_false] at hmem
    rcases hmem with h | h | h | h | h | h | h | h | h | h | h | h | h | h | h | h | h | h <;>
      exact Cmd.noConfusion h

/-- C8: `sort` performs no runtime validation of `n`: for every `k`,
including `k` larger than the buffer length, `sort(.., Some k)` records the
same command sequence it would record for a bundle whose capacity makes `k`
valid — the trace depends only on `k`, never on the buffer length, and it
starts by writing `k` to the state buffer. -/
theorem sort_no_runtime_validation (bufLen otherLen k : Nat) :
    sort bufLen (some k) = sort otherLen (some k) ∧
    sort bufLen (some k) =
      Cmd.writeState 0 k ::
        (record_calculate_histogram k ++ record_prefix_histogram ++
          record_scatter_keys k) :=
  ⟨rfl, rfl⟩

/-- C10: with `sort_first_n = Some 0`, `sort` writes 0 to `num_keys` and
records the histogram and all four scatter dispatches with 0 workgroups
(`histo_blocks_ru 0 = scatter_blocks_ru 0 = 0`) while still dispatching
`prefix_histogram` with 4 workgroups; executing such a trace leaves every
buffer untouched (in particular nothing, histogram region included, is
zeroed — a 0-workgroup `zero_histograms` dispatch executes no workgroup)
and only sets `num_keys` to 0. -/
theorem sort_zero_n (bufLen x : Nat) (s : DeviceState) :
    sort bufLen (some 0) =
      Cmd.writeState 0 0 ::
      [ Cmd.beginPass "zeroing the histogram",
        Cmd.setPipeline Pipeline.zeroHistograms,
        Cmd.dispatch 0 1 1,
        Cmd.beginPass "calculate histogram",
        Cmd.setPipeline Pipeline.calculateHistogram,
        Cmd.dispatch 0 1 1,
        Cmd.beginPass "prefix histogram",
        Cmd.setPipeline Pipeline.prefixHistogram,
        Cmd.dispatch 4 1 1,
        Cmd.beginPass "Scatter keyvals",
        Cmd.setPipeline Pipeline.scatterEven,
        Cmd.dispatch 0 1 1,
        Cmd.setPipeline Pipeline.scatterOdd,
        Cmd.dispatch 0 1 1,
        Cmd.setPipeline Pipeline.scatterEven,
        Cmd.dispatch 0 1 1,
        Cmd.setPipeline Pipeline.scatterOdd,
        Cmd.dispatch 0 1 1 ] ∧
    execTrace x (sort bufLen (some 0)) s = { s with numKeys := 0 } := by
  constructor
  · simp only [sort, Option.getD_some]
    rfl
  · show (List.foldl (execStep x) _ _).1 = _
    simp only [sort, record_calculate_histogram, record_prefix_histogram,
      record_scatter_keys, Option.getD, List.cons_append, List.nil_append,
      List.foldl, execStep, eq_self_iff_true, if_true, ite_true]
    have h0 : histo_blocks_ru 0 = 0 := rfl
    have h1 : scatter_blocks_ru 0 = 0 := rfl
    rw [h0, h1]
    simp only [dispatchEffect, if_pos rfl, ite_true, dispatchEffect_prefixPass]
    simp [Nat.zero_mod, U32]

/-- C7: whenever the `u32` arithmetic does not overflow,
`histo_blocks_ru(n) = scatter_blocks_ru(n)` and this common value is the
ceiling of `n / 3840` (characterized by `n <= blocks * 3840 < n + 3840`,
the constants `HISTO_BLOCK_KVS = SCATTER_BLOCK_KVS = 3840` being equal), and
`keys_buffer_size(n) = histo_blocks_ru(n) * HISTO_BLOCK_KVS` is a multiple of
`HISTO_BLOCK_KVS` that is at least `n`. -/
theorem blocks_ru_spec (n : Nat) (h : n ≤ 4294963200) :
    histo_blocks_ru n = scatter_blocks_ru n ∧
    n ≤ scatter_blocks_ru n * SCATTER_BLOCK_KVS ∧
    scatter_blocks_ru n * SCATTER_BLOCK_KVS < n + SCATTER_BLOCK_KVS ∧
    keys_buffer_size n = histo_blocks_ru n * HISTO_BLOCK_KVS ∧
    HISTO_BLOCK_KVS ∣ keys_buffer_size n ∧
    n ≤ keys_buffer_size n ∧
    HISTO_BLOCK_KVS = 3840 ∧ SCATTER_BLOCK_KVS = 3840 := by
  obtain ⟨hs, hh, hk⟩ := blocks_exact n h
  have hS : SCATTER_BLOCK_KVS = 3840 := rfl
  have hH : HISTO_BLOCK_KVS = 3840 := rfl
  refine ⟨by rw [hs, hh], ?_, ?_, ?_, ?_, ?_, hH, hS⟩
  · rw [hs, hS]
    omega
  · rw [hs, hS]
    omega
  · rw [hk, hh, hH]
  · rw [hk, hH]
    exact dvd_mul_left 3840 ((n + 3839) / 3840)
  · rw [hk]
    omega

/-- Witness for C7 at `n = 5000`: two blocks of 3840 cover 5000 keyvals. -/
theorem blocks_ru_spec_witness :
    5000 ≤ 4294963200 ∧
    (histo_blocks_ru 5000 = scatter_blocks_ru 5000 ∧
      5000 ≤ scatter_blocks_ru 5000 * SCATTER_BLOCK_KVS ∧
      scatter_blocks_ru 5000 * SCATTER_BLOCK_KVS < 5000 + SCATTER_BLOCK_KVS ∧
      keys_buffer_size 5000 = histo_blocks_ru 5000 * HISTO_BLOCK_KVS ∧
      HISTO_BLOCK_KVS ∣ keys_buffer_size 5000 ∧
      5000 ≤ keys_buffer_size 5000 ∧
      HISTO_BLOCK_KVS = 3840 ∧ SCATTER_BLOCK_KVS = 3840) :=
  ⟨by norm_num, blocks_ru_spec 5000 (by norm_num)⟩

/-- C2 counterexample: for capacity 1 the claimed byte size
`padded_size(1) * 4 = 15360` differs from the allocated byte size, which is
`padded_size(1) * RS_KEYVAL_SIZE * BYTES_PER_PAYLOAD_ELEM = 61440`. -/
theorem keys_alloc_counterexample :
    (create_keyval_buffers 1).1.size = 61440 ∧
    keys_buffer_size 1 * 4 = 15360 ∧
    (create_keyval_buffers 1).1.size ≠ keys_buffer_size 1 * 4 := by
  refine ⟨?_, ?_, ?_⟩ <;> decide

/-- C2 amended: `create_sort_buffers(device, capacity)` allocates `keys_a`
and `keys_b` each with byte size
`padded_size(capacity) * RS_KEYVAL_SIZE * BYTES_PER_PAYLOAD_ELEM`
(16 bytes per padded slot, not 4), where
`padded_size(capacity) = histo_blocks_ru(capacity) * HISTO_BLOCK_KVS`;
`keys_a` additionally carries COPY_DST and COPY_SRC usage while `keys_b` is
storage-only.  Stated for capacities whose byte size fits in `u32`. -/
theorem create_keyval_buffers_spec (cap : Nat) (h1 : 1 ≤ cap)
    (h2 : cap ≤ 268435200) :
    (create_keyval_buffers cap).1.size
        = histo_blocks_ru cap * HISTO_BLOCK_KVS * RS_KEYVAL_SIZE * BYTES_PER_PAYLOAD_ELEM ∧
    (create_keyval_buffers cap).2.1.size = (create_keyval_buffers cap).1.size ∧
    (create_keyval_buffers cap).1.usage
        = { storage := true, copyDst := true, copySrc := true } ∧
    (create_keyval_buffers cap).2.1.usage
        = { storage := true, copyDst := false, copySrc := false } := by
  obtain ⟨hs, hh, hk⟩ := blocks_exact cap (by omega)
  refine ⟨?_, rfl, rfl, rfl⟩
  simp only [create_keyval_buffers]
  rw [hk, hh]
  have hH : HISTO_BLOCK_KVS = 3840 := rfl
  have hR : RS_KEYVAL_SIZE = 4 := rfl
  have hB : BYTES_PER_PAYLOAD_ELEM = 4 := rfl
  rw [hH, hR, hB]
  unfold wmul U32
  omega

/-- Witness for C2 amended at capacity 1: one histogram block, 61440 bytes. -/
theorem create_keyval_buffers_spec_witness :
    1 ≤ 1 ∧ (1 : Nat) ≤ 268435200 ∧
    ((create_keyval_buffers 1).1.size
        = histo_blocks_ru 1 * HISTO_BLOCK_KVS * RS_KEYVAL_SIZE * BYTES_PER_PAYLOAD_ELEM ∧
      (create_keyval_buffers 1).2.1.size = (create_keyval_buffers 1).1.size ∧
      (create_keyval_buffers 1).1.usage
          = { storage := true, copyDst := true, copySrc := true } ∧
      (create_keyval_buffers 1).2.1.usage
          = { storage := true, copyDst := false, copySrc := false }) :=
  ⟨by norm_num, by norm_num, create_keyval_buffers_spec 1 (by norm_num) (by norm_num)⟩

/-- C3 counterexample: when the 8192-element test sort fails at width 1 but
would succeed at width 8, the loop breaks at the first failure and returns
none, not the largest width whose test sort produced correct output. -/
theorem guess_workgroup_size_counterexample :
    guess_workgroup_size (fun w => w == 8) = none ∧
    largestSuccessful (fun w => w == 8) = some 8 ∧
    guess_workgroup_size (fun w => w == 8) ≠ largestSuccessful (fun w => w == 8) := by
  refine ⟨?_, ?_, ?_⟩ <;> decide

/-- C3 amended: `guess_workgroup_size` tests the widths 1, 8, 16, 32, 64,
128 in ascending order but stops at the first failing width, returning the
last passing width of that run (or none when width 1 already fails); when
test success is downward closed along the width order — as it is when
failures are caused by exceeding the true device subgroup width — this is
the largest width in the list whose test sort produces correct output. -/
theorem guess_workgroup_size_largest (success : Nat → Bool)
    (hmono : ∀ v w, v ∈ probeWidths → w ∈ probeWidths → v ≤ w →
      success w = true → success v = true) :
    guess_workgroup_size success = largestSuccessful success := by
  have m1 : success 8 = true → success 1 = true :=
    hmono 1 8 (by simp [probeWidths]) (by simp [probeWidths]) (by norm_num)
  have m2 : success 16 = true → success 8 = true :=
    hmono 8 16 (by simp [probeWidths]) (by simp [probeWidths]) (by norm_num)
  have m3 : success 32 = true → success 16 = true :=
    hmono 16 32 (by simp [probeWidths]) (by simp [probeWidths]) (by norm_num)
  have m4 : success 64 = true → success 32 = true :=
    hmono 32 64 (by simp [probeWidths]) (by simp [probeWidths]) (by norm_num)
  have m5 : success 128 = true → success 64 = true :=
    hmono 64 128 (by simp [probeWidths]) (by simp [probeWidths]) (by norm_num)
  cases h1 : success 1 <;> cases h8 : success 8 <;> cases h16 : success 16 <;>
    cases h32 : success 32 <;> cases h64 : success 64 <;> cases h128 : success 128 <;>
    first
    | (simp only [guess_workgroup_size, guessLoop, probeWidths, largestSuccessful,
        List.filter_cons, List.filter_nil, h1, h8, h16, h32, h64, h128,
        if_true, if_false, ite_true, ite_false]
       decide)
    | simp_all

/-- Witness for C3 amended with the downward-closed oracle that succeeds up
to width 32: the probe returns 32, the largest passing width. -/
theorem guess_workgroup_size_largest_witness :
    (∀ v w, v ∈ probeWidths → w ∈ probeWidths → v ≤ w →
      (fun u => decide (u ≤ 32)) w = true → (fun u => decide (u ≤ 32)) v = true) ∧
    guess_workgroup_size (fun u => decide (u ≤ 32))
      = largestSuccessful (fun u => decide (u ≤ 32)) :=
  ⟨fun v w _ _ hvw hw => by
      simp only [decide_eq_true_eq] at hw ⊢
      omega,
    guess_workgroup_size_largest (fun u => decide (u ≤ 32))
      (fun v w _ _ hvw hw => by
        simp only [decide_eq_true_eq] at hw ⊢
        omega)⟩

/-- The dispatch sequence of a recorded command list: for each dispatch, the
pipeline bound at that point and its effective workgroup count on x, an
indirect dispatch resolving to the `x` stored in the caller's args buffer. -/
def dispatchSeqGo (x : Nat) : Pipeline → List Cmd → List (Pipeline × Nat)
  | _, [] => []
  | _, Cmd.setPipeline p :: rest => dispatchSeqGo x p rest
  | cur, Cmd.dispatch a _ _ :: rest => (cur, a) :: dispatchSeqGo x cur rest
  | cur, Cmd.dispatchIndirect _ :: rest => (cur, x) :: dispatchSeqGo x cur rest
  | cur, Cmd.writeState _ _ :: rest => dispatchSeqGo x cur rest
  | cur, Cmd.beginPass _ :: rest => dispatchSeqGo x cur rest

/-- Dispatch sequence of a trace, starting before any pipeline is bound. -/
def dispatchSeq (x : Nat) (cmds : List Cmd) : List (Pipeline × Nat) :=
  dispatchSeqGo x Pipeline.zeroHistograms cmds

/-- C5: with the caller having pre-written `n` into the state buffer and
supplied indirect args `x = histo_blocks_ru n` (y = z = 1), `sort_indirect`
records a dispatch sequence equivalent to the one `sort` records for the
same `n` — same five pipelines, same effective workgroup counts (because
`histo_blocks_ru n = scatter_blocks_ru n`), same order — and executing
either trace from that state produces the identical final state, hence
identical sorted outputs. -/
theorem sort_indirect_equivalent (bufLen n x : Nat) (s : DeviceState)
    (hn : n ≤ 4294963200) (hx : x = histo_blocks_ru n) (hs : s.numKeys = n) :
    dispatchSeq x sort_indirect = dispatchSeq x (sort bufLen (some n)) ∧
    execTrace x sort_indirect s = execTrace x (sort bufLen (some n)) s := by
  obtain ⟨hsc, hhi, -⟩ := blocks_exact n hn
  have heq : histo_blocks_ru n = scatter_blocks_ru n := by rw [hsc, hhi]
  have hstate : ({ s with numKeys := n % U32 } : DeviceState) = s := by
    have hnm : n % U32 = n := Nat.mod_eq_of_lt (by unfold U32; omega)
    rw [hnm, ← hs]
  subst hx
  constructor
  · simp only [dispatchSeq, sort, sort_indirect, record_calculate_histogram,
      record_calculate_histogram_indirect, record_prefix_histogram,
      record_scatter_keys, record_scatter_keys_indirect, Option.getD_some,
      List.cons_append, List.nil_append, dispatchSeqGo, heq]
  · simp only [execTrace, sort, sort_indirect, record_calculate_histogram,
      record_calculate_histogram_indirect, record_prefix_histogram,
      record_scatter_keys, record_scatter_keys_indirect, Option.getD_some,
      List.cons_append, List.nil_append, List.foldl, execStep,
      eq_self_iff_true, if_true, ite_true, hstate, dispatchEffect_zero,
      dispatchEffect_calc, dispatchEffect_prefixPass, heq]

/-- Witness for C5 at `n = 2` on a concrete two-element state. -/
theorem sort_indirect_equivalent_witness :
    (2 : Nat) ≤ 4294963200 ∧ (1 : Nat) = histo_blocks_ru 2 ∧
    (DeviceState.mk [5, 1] [0, 0] [50, 10] [0, 0] 2 0 0).numKeys = 2 ∧
    (dispatchSeq 1 sort_indirect = dispatchSeq 1 (sort 2 (some 2)) ∧
      execTrace 1 sort_indirect (DeviceState.mk [5, 1] [0, 0] [50, 10] [0, 0] 2 0 0)
        = execTrace 1 (sort 2 (some 2)) (DeviceState.mk [5, 1] [0, 0] [50, 10] [0, 0] 2 0 0)) :=
  ⟨by norm_num, by decide, rfl,
    sort_indirect_equivalent 2 2 1 (DeviceState.mk [5, 1] [0, 0] [50, 10] [0, 0] 2 0 0)
      (by norm_num) (by decide) rfl⟩

/-- C9 counterexample: at capacity `17895698` (the first capacity at or above
`2^28 / 15`), the keys byte size computes without any modular reduction —
it equals the exact product and is at least the `4 * n` bytes the keys
occupy — so the claimed threshold `2^28 / 15` is wrong (the first reduction
happens only once `padded_size(n) * 16` reaches `2^32`, i.e. for
`n > 268435200`). -/
theorem u32_wrap_counterexample :
    (create_keyval_buffers 17895698).1.size = 286371840 ∧
    286371840 = (17895698 + 3839) / 3840 * 3840 * 4 * 4 ∧
    4 * 17895698 ≤ (create_keyval_buffers 17895698).1.size := by
  refine ⟨?_, ?_, ?_⟩ <;> decide

/-- C9 amended: all derived-size computations are performed in `u32`
arithmetic that wraps modulo `2^32` before any widening to `u64`: for any
`u32` value `n > 2^32 - SCATTER_BLOCK_KVS` the sum `n + SCATTER_BLOCK_KVS`
inside `scatter_blocks_ru` wraps and the function returns 0 blocks; for any
capacity `m` with `268435200 < m <= 268439040` (a range containing no valid
capacity threshold of the claimed form `2^28 / 15`; the wrap starts where
`padded_size(m) * 16` reaches `2^32`) the computed keys byte size wraps to
57344 bytes, strictly smaller than the `4 * m` bytes of the keys it is meant
to hold; and `keys_valid_size` at `len = 2^30` wraps to 0, strictly smaller
than `len * RS_KEYVAL_SIZE`. -/
theorem u32_wrap_amended (n m len : Nat)
    (hn1 : 4294963456 < n) (hn2 : n < U32)
    (hm1 : 268435200 < m) (hm2 : m ≤ 268439040)
    (hlen : len = 1073741824) :
    U32 ≤ n + SCATTER_BLOCK_KVS ∧
    scatter_blocks_ru n = 0 ∧
    (create_keyval_buffers m).1.size = 57344 ∧
    (create_keyval_buffers m).1.size < m * BYTES_PER_PAYLOAD_ELEM ∧
    keys_valid_size len = 0 ∧
    keys_valid_size len < len * RS_KEYVAL_SIZE := by
  have hU : U32 = 4294967296 := rfl
  have hS : SCATTER_BLOCK_KVS = 3840 := rfl
  have hB : BYTES_PER_PAYLOAD_ELEM = 4 := rfl
  have hR : RS_KEYVAL_SIZE = 4 := rfl
  refine ⟨by rw [hU, hS]; omega, ?_, ?_, ?_, ?_, ?_⟩
  · unfold scatter_blocks_ru wadd wsub U32 SCATTER_BLOCK_KVS HISTOGRAM_WG_SIZE
      RS_SCATTER_BLOCK_ROWS RS_HISTOGRAM_BLOCK_ROWS
    rw [hU] at hn2
    omega
  · obtain ⟨-, -, hk⟩ := blocks_exact m (by omega)
    simp only [create_keyval_buffers]
    rw [hk, hR, hB]
    unfold wmul U32
    omega
  · obtain ⟨-, -, hk⟩ := blocks_exact m (by omega)
    simp only [create_keyval_buffers]
    rw [hk, hR, hB]
    unfold wmul U32
    omega
  · subst hlen
    decide
  · subst hlen
    decide

/-- Witness for C9 amended at `n = 2^32 - 1`, `m = 2^28`, `len = 2^30`. -/
theorem u32_wrap_amended_witness :
    4294963456 < 4294967295 ∧ (4294967295 : Nat) < U32 ∧
    268435200 < 268435456 ∧ (268435456 : Nat) ≤ 268439040 ∧
    (1073741824 : Nat) = 1073741824 ∧
    (U32 ≤ 4294967295 + SCATTER_BLOCK_KVS ∧
      scatter_blocks_ru 4294967295 = 0 ∧
      (create_keyval_buffers 268435456).1.size = 57344 ∧
      (create_keyval_buffers 268435456).1.size < 268435456 * BYTES_PER_PAYLOAD_ELEM ∧
      keys_valid_size 1073741824 = 0 ∧
      keys_valid_size 1073741824 < 1073741824 * RS_KEYVAL_SIZE) :=
  ⟨by norm_num, by decide, by norm_num, by norm_num, rfl,
    u32_wrap_amended 4294967295 268435456 1073741824
      (by norm_num) (by decide) (by norm_num) (by norm_num) rfl⟩

/-- Witness for C1 on the concrete bundle `keys = [3, 1, 2]`,
`payload = [30, 10, 20]`, `n = 3`: keys come out sorted with payloads moved
by the sorting permutation. -/
theorem sort_output_sorted_witness :
    (3 : Nat) = (some 3).getD ([3, 1, 2] : List Nat).length ∧
    (1 : Nat) ≤ 3 ∧ 3 ≤ ([3, 1, 2] : List Nat).length ∧
    3 ≤ ([30, 10, 20] : List Nat).length ∧
    ([3, 1, 2] : List Nat).length ≤ 4294963200 ∧
    (∀ k ∈ ([3, 1, 2] : List Nat).take 3, k < U32) ∧
    (List.Sorted (· ≤ ·)
        ((execTrace 0 (sort ([3, 1, 2] : List Nat).length (some 3))
          ⟨[3, 1, 2], [0, 0, 0], [30, 10, 20], [0, 0, 0], 3, 0, 0⟩).keysA.take 3) ∧
      (((execTrace 0 (sort ([3, 1, 2] : List Nat).length (some 3))
            ⟨[3, 1, 2], [0, 0, 0], [30, 10, 20], [0, 0, 0], 3, 0, 0⟩).keysA.take 3).zip
          ((execTrace 0 (sort ([3, 1, 2] : List Nat).length (some 3))
            ⟨[3, 1, 2], [0, 0, 0], [30, 10, 20], [0, 0, 0], 3, 0, 0⟩).payloadA.take 3)).Perm
        ((([3, 1, 2] : List Nat).take 3).zip (([30, 10, 20] : List Nat).take 3))) :=
  ⟨by decide, by decide, by decide, by decide, by decide, by decide,
    sort_output_sorted 0 3 [3, 1, 2] [0, 0, 0] [30, 10, 20] [0, 0, 0] (some 3) 3
      (by decide) (by decide) (by decide) (by decide) (by decide) (by decide)⟩
